import Mathlib

/-!
# Verification of the sylar fiber core (`fiber.cc`)

A shallow embedding of the stackful-coroutine ("fiber") module: the fiber
state machine, the thread-local current-fiber registry, the process-wide
id generator and live-fiber counter, and the resume/yield context-switch
protocol.

Machine contexts (`ucontext_t`) are opaque register snapshots; the model
records every `swapcontext` call as a trace event naming the save target
(the anchor whose `m_ctx` receives the caller's live context) and the load
target, rather than interpreting register contents.  Stack pointers and
callbacks are likewise opaque tokens.  The two process-wide counters are
`std::atomic<uint64_t>`, modelled as naturals reduced modulo `2 ^ 64`;
the model is single-threaded per the source's thread-local design, so
atomicity itself needs no modelling.  Heap addresses of fiber objects are
drawn from a deterministic allocation counter so that every operation is
executable.
-/

namespace SylarFiber

/-- Wrap-around modulus of the `uint64_t` counters `s_fiber_count` and
`s_fiber_id`. -/
def U64SIZE : Nat := 18446744073709551616

/-- Fiber states, from the `State` enum referenced throughout `fiber.cc`:
`READY`, `RUNNING`, `TERM`. -/
inductive FState where
  | READY
  | RUNNING
  | TERM
deriving DecidableEq, Repr

/-- Opaque machine context.  `captured` is the baseline produced by a bare
`getcontext` (root-fiber constructor); `boundMainFunc sp sz` is a context
that `makecontext` has bound to start at `Fiber::MainFunc` on the stack
block `sp` of size `sz`. -/
inductive Ctx where
  | captured
  | boundMainFunc (sp : Nat) (sz : Nat)
deriving DecidableEq, Repr

/-- The fields of `class Fiber` (`fiber.h` lines 117-129).  `m_stack` is
`none` for a root fiber (null pointer) and `some sp` for a task fiber
owning the allocation token `sp`; `m_cb` is `none` for an empty
`std::function`; `m_id` is `uint64_t` and `m_stack_size` is `uint32_t`,
so the operations keep their values below 2^64 and 2^32 respectively. -/
structure Fiber where
  m_id : Nat
  m_state : FState
  m_stack : Option Nat
  m_stack_size : Nat
  m_cb : Option Nat
  m_runInScheduler : Bool
  m_ctx : Ctx
deriving DecidableEq, Repr

/-- The two possible save targets of the `swapcontext` inside `resume()`:
the scheduler's per-thread hub fiber (`Scheduler::GetMainFiber()->m_ctx`)
or the thread root fiber (`t_thread_fiber->m_ctx`). -/
inductive Anchor where
  | schedulerHub
  | threadRoot
deriving DecidableEq, Repr

/-- Primitive observable actions, in program order.  `ctxSwapIn save a` is
`resume()`'s `swapcontext(&anchor->m_ctx, &m_ctx)`: the caller's live
context is saved into `save` and fiber `a`'s saved context is loaded.
`ctxSwapOut a` is `yield()`'s `swapcontext(&m_ctx, &t_thread_fiber->m_ctx)`:
fiber `a`'s context is saved and the thread root fiber's context is loaded
(always the root, never the hub). -/
inductive Event where
  | setThis (p : Option Nat)
  | writeState (a : Nat) (st : FState)
  | writeCb (a : Nat) (cb : Option Nat)
  | ctxSwapIn (save : Anchor) (load : Nat)
  | ctxSwapOut (a : Nat)
  | allocStack (sp : Nat) (sz : Nat)
  | deallocStack (sp : Nat) (sz : Nat)
  | invokeCb (cb : Nat)
  | acquireRef (a : Nat)
  | releaseRef (a : Nat)
  | assignId (i : Nat)
  | countInc
  | countDec
deriving DecidableEq, Repr

/-- The mutable globals of `fiber.cc` for one thread: the process-wide
counters `s_fiber_count` and `s_fiber_id`, the thread-local raw pointer
`t_fiber` and owning root handle `t_thread_fiber` (both as optional heap
addresses), the heap of live fiber objects as an association list from
address to fiber, a deterministic allocation counter for fresh addresses
and stack tokens, and the current value of the config entry
`"fiber.stack_size"` (`g_fiber_stack_size`). -/
structure SysState where
  s_fiber_count : Nat
  s_fiber_id : Nat
  t_fiber : Option Nat
  t_thread_fiber : Option Nat
  heap : List (Nat × Fiber)
  next_alloc : Nat
  fiber_stack_size_config : Nat
deriving DecidableEq, Repr

/-- Default registered for `"fiber.stack_size"`:
`Config::Lookup<uint32_t>("fiber.stack_size", 128 * 1024, ...)`. -/
def defaultFiberStackSize : Nat := 128 * 1024

/-- Process start: both counters zero, no fiber registered on the thread,
empty heap, config at its registered default. -/
def initState : SysState :=
  { s_fiber_count := 0
    s_fiber_id := 0
    t_fiber := none
    t_thread_fiber := none
    heap := []
    next_alloc := 0
    fiber_stack_size_config := defaultFiberStackSize }

/-- Association-list lookup on the fiber heap (pointer dereference). -/
def hLookup : List (Nat × Fiber) → Nat → Option Fiber
  | [], _ => none
  | (k, f) :: rest, a => if k = a then some f else hLookup rest a

/-- In-place mutation of the fiber object at address `a`. -/
def hUpdate : List (Nat × Fiber) → Nat → Fiber → List (Nat × Fiber)
  | [], _, _ => []
  | (k, f) :: rest, a, g =>
      if k = a then (a, g) :: rest else (k, f) :: hUpdate rest a g

/-- Removal of the fiber object at address `a` (object end-of-life). -/
def hRemove : List (Nat × Fiber) → Nat → List (Nat × Fiber)
  | [], _ => []
  | (k, f) :: rest, a => if k = a then rest else (k, f) :: hRemove rest a

/-- Wrap-around modulus of the `uint32_t` field `m_stack_size`
(`fiber.h` line 119): assigning the `size_t` request into it truncates
the value to its low 32 bits. -/
def U32SIZE : Nat := 4294967296

/-- The private root-fiber constructor `Fiber::Fiber()`: registers itself
as the current fiber, becomes `RUNNING`, captures a baseline context,
increments the live count and takes the next id.  It has no stack and no
callback (`fiber.h` in-class initializers: `m_stack = nullptr`, default
`std::function` `m_cb`; `m_runInScheduler` is left uninitialized there
and never read on a root fiber, so the model fixes it to `false`).
Returns the new object's address, the new state and the event trace. -/
def mkRootFiber (s : SysState) : Nat × SysState × List Event :=
  let a := s.next_alloc
  let f : Fiber :=
    { m_id := s.s_fiber_id
      m_state := .RUNNING
      m_stack := none
      m_stack_size := 0
      m_cb := none
      m_runInScheduler := false
      m_ctx := .captured }
  (a,
   { s with
      t_fiber := some a
      heap := (a, f) :: s.heap
      next_alloc := a + 1
      s_fiber_count := (s.s_fiber_count + 1) % U64SIZE
      s_fiber_id := (s.s_fiber_id + 1) % U64SIZE },
   [.setThis (some a), .writeState a .RUNNING, .countInc, .assignId s.s_fiber_id])

/-- The task constructor `Fiber::Fiber(cb, stack_size, run_in_scheduler)`:
takes the next id (initializer list), increments the live count, sizes the
stack from the request or — when the request is 0 — from
`g_fiber_stack_size->getValue()`, truncating the chosen `size_t` value
into the `uint32_t` field `m_stack_size` (`fiber.h` line 119), allocates
that many bytes, and binds the context to `Fiber::MainFunc` via
`makecontext`.  The state stays at the in-class default `READY`
(`fiber.h` line 121); the body never assigns `m_state` and never touches
`t_fiber`. -/
def mkFiber (s : SysState) (cb : Nat) (stackSize : Nat) (runInScheduler : Bool) :
    Nat × SysState × List Event :=
  let a := s.next_alloc
  let sp := s.next_alloc + 1
  let realSize :=
    (if stackSize ≠ 0 then stackSize else s.fiber_stack_size_config) % U32SIZE
  let f : Fiber :=
    { m_id := s.s_fiber_id
      m_state := .READY
      m_stack := some sp
      m_stack_size := realSize
      m_cb := some cb
      m_runInScheduler := runInScheduler
      m_ctx := .boundMainFunc sp realSize }
  (a,
   { s with
      heap := (a, f) :: s.heap
      next_alloc := a + 2
      s_fiber_count := (s.s_fiber_count + 1) % U64SIZE
      s_fiber_id := (s.s_fiber_id + 1) % U64SIZE },
   [.assignId s.s_fiber_id, .countInc, .allocStack sp realSize])

/-- The destructor `Fiber::~Fiber()` on the object at `a`.  It decrements
the live count, then: with a stack, asserts `m_state == TERM` and frees the
stack; without one (root fiber), asserts `!m_cb` and `m_state == RUNNING`
and clears `t_fiber` exactly when it points at this object.  `none` is a
fatal assertion (or a vanished object). -/
def destroyFiber (s : SysState) (a : Nat) : Option (SysState × List Event) :=
  match hLookup s.heap a with
  | none => none
  | some f =>
    let s1 : SysState :=
      { s with
          s_fiber_count := (s.s_fiber_count + (U64SIZE - 1)) % U64SIZE
          heap := hRemove s.heap a }
    match f.m_stack with
    | some sp =>
        if f.m_state = .TERM then
          some (s1, [.countDec, .deallocStack sp f.m_stack_size])
        else none
    | none =>
        if f.m_cb = none ∧ f.m_state = .RUNNING then
          if s.t_fiber = some a then
            some ({ s1 with t_fiber := none }, [.countDec, .setThis none])
          else
            some (s1, [.countDec])
        else none

/-- `Fiber::resume()` on the fiber at `a`: asserts the state is neither
`TERM` nor `RUNNING`, registers the fiber as current, sets `RUNNING`, and
swaps contexts — saving the caller into the scheduler hub's context when
`m_runInScheduler` holds and into the thread root fiber's context
otherwise. -/
def resumeF (s : SysState) (a : Nat) : Option (SysState × List Event) :=
  match hLookup s.heap a with
  | none => none
  | some f =>
    if f.m_state ≠ .TERM ∧ f.m_state ≠ .RUNNING then
      some
        ({ s with
            t_fiber := some a
            heap := hUpdate s.heap a { f with m_state := .RUNNING } },
         [.setThis (some a), .writeState a .RUNNING,
          .ctxSwapIn (if f.m_runInScheduler then .schedulerHub else .threadRoot) a])
    else none

/-- `Fiber::yield()` on the fiber at `a`: asserts the state is `RUNNING`
or `TERM`, re-registers the thread root fiber as current, downgrades a
non-`TERM` state to `READY` (a `TERM` fiber stays `TERM`), and swaps out to
the thread root fiber's context — unconditionally, with no
`m_runInScheduler` branch. -/
def yieldF (s : SysState) (a : Nat) : Option (SysState × List Event) :=
  match hLookup s.heap a with
  | none => none
  | some f =>
    if f.m_state = .RUNNING ∨ f.m_state = .TERM then
      if f.m_state ≠ .TERM then
        some
          ({ s with
              t_fiber := s.t_thread_fiber
              heap := hUpdate s.heap a { f with m_state := .READY } },
           [.setThis s.t_thread_fiber, .writeState a .READY, .ctxSwapOut a])
      else
        some ({ s with t_fiber := s.t_thread_fiber },
              [.setThis s.t_thread_fiber, .ctxSwapOut a])
    else none

/-- `Fiber::GetThis()`: when a fiber is registered it is returned (as a
strong reference, `shared_from_this`); otherwise the root fiber is
constructed — registering itself — stored into `t_thread_fiber`, and
returned. -/
def getThis (s : SysState) : Nat × SysState × List Event :=
  match s.t_fiber with
  | some a => (a, s, [.acquireRef a])
  | none =>
    let r := mkRootFiber s
    (r.1, { r.2.1 with t_thread_fiber := some r.1 }, r.2.2 ++ [.acquireRef r.1])

/-- `Fiber::GetFiberId()`: the current fiber's id, or 0 when no fiber is
registered on the thread.  (A dangling `t_fiber` is undefined behaviour in
the source; the model returns 0 there, and no reachable state is
dangling.) -/
def getFiberId (s : SysState) : Nat :=
  match s.t_fiber with
  | none => 0
  | some a =>
    match hLookup s.heap a with
    | some f => f.m_id
    | none => 0

/-- `Fiber::TotalFibers()`: the live-fiber counter. -/
def totalFibers (s : SysState) : Nat := s.s_fiber_count

/-- The entry trampoline `Fiber::MainFunc()`: takes a strong handle to the
current fiber via `GetThis()`, invokes the stored callback (invoking an
empty `std::function` is fatal), clears the callback, sets `TERM`, releases
the strong handle (`cur.reset()`), and calls `yield()` through the
retained raw pointer. -/
def mainFunc (s : SysState) : Option (SysState × List Event) :=
  let r := getThis s
  match hLookup r.2.1.heap r.1 with
  | none => none
  | some f =>
    match f.m_cb with
    | none => none
    | some cb =>
      let s2 : SysState :=
        { r.2.1 with
            heap := hUpdate r.2.1.heap r.1 { f with m_cb := none, m_state := .TERM } }
      match yieldF s2 r.1 with
      | none => none
      | some (s3, tr3) =>
        some (s3,
          r.2.2 ++ [.invokeCb cb, .writeCb r.1 none, .writeState r.1 .TERM,
                    .releaseRef r.1] ++ tr3)

/-- `Fiber::reset(cb)` on the fiber at `a`: asserts the fiber owns a stack
and is `TERM`, installs the new callback, rebuilds the context over the
same stack block to start at `Fiber::MainFunc` again, and sets `READY`. -/
def resetF (s : SysState) (a : Nat) (cb : Nat) : Option (SysState × List Event) :=
  match hLookup s.heap a with
  | none => none
  | some f =>
    match f.m_stack with
    | none => none
    | some sp =>
      if f.m_state = .TERM then
        some
          ({ s with
              heap := hUpdate s.heap a
                { f with
                    m_cb := some cb
                    m_ctx := .boundMainFunc sp f.m_stack_size
                    m_state := .READY } },
           [.writeCb a (some cb), .writeState a .READY])
      else none

/-- The operations a client (or the trampoline) can perform. -/
inductive Op where
  | getCurrent
  | create (cb : Nat) (stackSize : Nat) (runInScheduler : Bool)
  | resume (a : Nat)
  | yield (a : Nat)
  | main
  | reset (a : Nat) (cb : Nat)
  | destroy (a : Nat)
deriving DecidableEq, Repr

/-- One operation; `none` is a fatal assertion failure. -/
def step (s : SysState) : Op → Option (SysState × List Event)
  | .getCurrent => some ((getThis s).2.1, (getThis s).2.2)
  | .create cb sz ris => some ((mkFiber s cb sz ris).2.1, (mkFiber s cb sz ris).2.2)
  | .resume a => resumeF s a
  | .yield a => yieldF s a
  | .main => mainFunc s
  | .reset a cb => resetF s a cb
  | .destroy a => destroyFiber s a

/-- A whole execution: the final state and the concatenated event trace,
or `none` when an assertion fired along the way. -/
def run (s : SysState) : List Op → Option (SysState × List Event)
  | [] => some (s, [])
  | op :: ops =>
    match step s op with
    | none => none
    | some (s1, tr1) =>
      match run s1 ops with
      | none => none
      | some (s2, tr2) => some (s2, tr1 ++ tr2)

/-- The ids assigned by constructions, in trace order. -/
def constructedIds (tr : List Event) : List Nat :=
  tr.filterMap fun e =>
    match e with
    | .assignId i => some i
    | _ => none

/-- Number of live-count increments (one per construction) in a trace. -/
def countIncs (tr : List Event) : Nat :=
  tr.countP fun e =>
    match e with
    | .countInc => true
    | _ => false

/-- Number of live-count decrements (one per destruction) in a trace. -/
def countDecs (tr : List Event) : Nat :=
  tr.countP fun e =>
    match e with
    | .countDec => true
    | _ => false

/-- Number of writes to the thread-local current-fiber pointer in a
trace. -/
def countSetThis (tr : List Event) : Nat :=
  tr.countP fun e =>
    match e with
    | .setThis _ => true
    | _ => false

/-! ## Heap lemmas -/

theorem hLookup_hUpdate (l : List (Nat × Fiber)) (a : Nat) (g : Fiber) :
    ∀ f, hLookup l a = some f → hLookup (hUpdate l a g) a = some g := by
  induction l with
  | nil => intro f h; simp [hLookup] at h
  | cons p rest ih =>
    intro f h
    obtain ⟨k, q⟩ := p
    by_cases hk : k = a
    · subst hk
      simp [hLookup, hUpdate]
    · simp [hLookup, hUpdate, hk] at h ⊢
      exact ih f h

theorem hUpdate_length (l : List (Nat × Fiber)) (a : Nat) (g : Fiber) :
    (hUpdate l a g).length = l.length := by
  induction l with
  | nil => rfl
  | cons p rest ih =>
    obtain ⟨k, q⟩ := p
    by_cases hk : k = a <;> simp [hUpdate, hk, ih]

theorem hRemove_length (l : List (Nat × Fiber)) (a : Nat) :
    ∀ f, hLookup l a = some f → (hRemove l a).length + 1 = l.length := by
  induction l with
  | nil => intro f h; simp [hLookup] at h
  | cons p rest ih =>
    intro f h
    obtain ⟨k, q⟩ := p
    by_cases hk : k = a
    · subst hk
      simp [hRemove]
    · simp [hLookup, hk] at h
      simp [hRemove, hk, ih f h]

/-! ## Trace-statistic lemmas -/

theorem constructedIds_append (t u : List Event) :
    constructedIds (t ++ u) = constructedIds t ++ constructedIds u := by
  simp [constructedIds]

theorem countIncs_append (t u : List Event) :
    countIncs (t ++ u) = countIncs t + countIncs u := by
  simp [countIncs, List.countP_append]

theorem countDecs_append (t u : List Event) :
    countDecs (t ++ u) = countDecs t + countDecs u := by
  simp [countDecs, List.countP_append]

/-- Number of stack releases in a trace. -/
def countDeallocs (tr : List Event) : Nat :=
  tr.countP fun e =>
    match e with
    | .deallocStack _ _ => true
    | _ => false

/-! ## Concrete states used to instantiate the theorems -/

/-- A root fiber as the root constructor builds it. -/
def exRootFiber : Fiber :=
  { m_id := 0, m_state := .RUNNING, m_stack := none, m_stack_size := 0,
    m_cb := none, m_runInScheduler := false, m_ctx := .captured }

/-- An unstarted scheduler-participating task fiber. -/
def exReadyFiber : Fiber :=
  { m_id := 1, m_state := .READY, m_stack := some 2, m_stack_size := 4096,
    m_cb := some 7, m_runInScheduler := true, m_ctx := .boundMainFunc 2 4096 }

/-- A currently running task fiber outside the scheduler. -/
def exRunningFiber : Fiber :=
  { m_id := 2, m_state := .RUNNING, m_stack := some 4, m_stack_size := 4096,
    m_cb := some 8, m_runInScheduler := false, m_ctx := .boundMainFunc 4 4096 }

/-- A finished task fiber whose callback has been cleared. -/
def exTermFiber : Fiber :=
  { m_id := 3, m_state := .TERM, m_stack := some 6, m_stack_size := 4096,
    m_cb := none, m_runInScheduler := false, m_ctx := .boundMainFunc 6 4096 }

/-- A thread with its root fiber, one fiber in each task state, and the
running one current. -/
def exState : SysState :=
  { s_fiber_count := 4, s_fiber_id := 4, t_fiber := some 3,
    t_thread_fiber := some 0,
    heap := [(0, exRootFiber), (1, exReadyFiber), (3, exRunningFiber),
             (5, exTermFiber)],
    next_alloc := 7, fiber_stack_size_config := 131072 }

/-- The same thread back in its root fiber (root registered as current). -/
def exStateRoot : SysState :=
  { exState with t_fiber := some 0 }

/-! ## Claims -/

/-- C1: resume() on a fiber whose state is neither Term nor Running
registers it as the thread's current fiber, sets its state to Running, and
performs one context swap that loads this fiber and saves the caller into
the scheduler hub's context when `m_runInScheduler` holds and into the
thread root fiber's context otherwise; resume() on a Term or Running fiber
is a fatal assertion. -/
theorem c1_resume_protocol (s : SysState) (a : Nat) (f : Fiber)
    (hl : hLookup s.heap a = some f) :
    (f.m_state ≠ .TERM → f.m_state ≠ .RUNNING →
      resumeF s a = some
        ({ s with
            t_fiber := some a
            heap := hUpdate s.heap a { f with m_state := .RUNNING } },
         [.setThis (some a), .writeState a .RUNNING,
          .ctxSwapIn (if f.m_runInScheduler then .schedulerHub else .threadRoot) a]))
    ∧ ((f.m_state = .TERM ∨ f.m_state = .RUNNING) → resumeF s a = none) := by
  constructor
  · intro h1 h2
    simp [resumeF, hl, h1, h2]
  · intro h
    rcases h with h | h <;> simp [resumeF, hl, h]

/-- C1 witness: in `exState`, resuming the Ready fiber at address 1
succeeds, and resuming the Term fiber at 5 and the Running fiber at 3 are
both fatal. -/
theorem c1_resume_protocol_witness :
    (resumeF exState 1).isSome = true
    ∧ resumeF exState 5 = none
    ∧ resumeF exState 3 = none := by
  refine ⟨?_, ?_, ?_⟩
  · rw [(c1_resume_protocol exState 1 exReadyFiber (by decide)).1
        (by decide) (by decide)]
    rfl
  · exact (c1_resume_protocol exState 5 exTermFiber (by decide)).2
      (Or.inl (by decide))
  · exact (c1_resume_protocol exState 3 exRunningFiber (by decide)).2
      (Or.inr (by decide))

/-- C2: yield() is legal exactly on a Running or Term fiber (anything else
is a fatal assertion); it re-registers the thread root fiber as current,
sets the state to Ready exactly when it was not Term, and always swaps out
to the thread root fiber's context — with no branch on
`m_runInScheduler`, unlike resume(). -/
theorem c2_yield_protocol (s : SysState) (a : Nat) (f : Fiber)
    (hl : hLookup s.heap a = some f) :
    (f.m_state = .RUNNING →
      yieldF s a = some
        ({ s with
            t_fiber := s.t_thread_fiber
            heap := hUpdate s.heap a { f with m_state := .READY } },
         [.setThis s.t_thread_fiber, .writeState a .READY, .ctxSwapOut a]))
    ∧ (f.m_state = .TERM →
      yieldF s a = some
        ({ s with t_fiber := s.t_thread_fiber },
         [.setThis s.t_thread_fiber, .ctxSwapOut a]))
    ∧ (f.m_state ≠ .RUNNING → f.m_state ≠ .TERM → yieldF s a = none) := by
  refine ⟨?_, ?_, ?_⟩
  · intro h
    simp [yieldF, hl, h]
  · intro h
    simp [yieldF, hl, h]
  · intro h1 h2
    simp [yieldF, hl, h1, h2]

/-- C2 witness: in `exState`, yield() on the Running fiber at 3 and the
Term fiber at 5 both succeed (the Term one keeping its state), while
yield() on the Ready fiber at 1 is fatal. -/
theorem c2_yield_protocol_witness :
    (yieldF exState 3).isSome = true
    ∧ (yieldF exState 5).isSome = true
    ∧ yieldF exState 1 = none := by
  refine ⟨?_, ?_, ?_⟩
  · rw [(c2_yield_protocol exState 3 exRunningFiber (by decide)).1 (by decide)]
    rfl
  · rw [(c2_yield_protocol exState 5 exTermFiber (by decide)).2.1 (by decide)]
    rfl
  · exact (c2_yield_protocol exState 1 exReadyFiber (by decide)).2.2
      (by decide) (by decide)

/-- C5: reset(cb) demands a stack-owning Term fiber (fatal otherwise);
afterwards the state is Ready and the new callback installed, while the
id, the stack pointer and the stack size are exactly those of the old
fiber — the context is rebuilt over the same stack block. -/
theorem c5_reset_reuses_stack (s : SysState) (a cb : Nat) (f : Fiber)
    (hl : hLookup s.heap a = some f) :
    (∀ sp, f.m_stack = some sp → f.m_state = .TERM →
      resetF s a cb = some
        ({ s with
            heap := hUpdate s.heap a
              { f with
                  m_cb := some cb
                  m_ctx := .boundMainFunc sp f.m_stack_size
                  m_state := .READY } },
         [.writeCb a (some cb), .writeState a .READY])
      ∧ hLookup
          (hUpdate s.heap a
            { f with
                m_cb := some cb
                m_ctx := .boundMainFunc sp f.m_stack_size
                m_state := .READY }) a =
        some
          { m_id := f.m_id, m_state := .READY, m_stack := f.m_stack,
            m_stack_size := f.m_stack_size, m_cb := some cb,
            m_runInScheduler := f.m_runInScheduler,
            m_ctx := .boundMainFunc sp f.m_stack_size })
    ∧ (f.m_stack = none → resetF s a cb = none)
    ∧ (f.m_state ≠ .TERM → resetF s a cb = none) := by
  refine ⟨?_, ?_, ?_⟩
  · intro sp hsp ht
    constructor
    · simp [resetF, hl, hsp, ht]
    · exact hLookup_hUpdate s.heap a _ f hl
  · intro hsp
    simp [resetF, hl, hsp]
  · intro ht
    cases hsp : f.m_stack <;> simp [resetF, hl, hsp, ht]

/-- C5 witness: in `exState`, resetting the Term fiber at 5 succeeds and
yields a Ready fiber with the old id, stack and size and the new callback;
resetting the stackless root at 0 and the non-Term fiber at 1 are fatal. -/
theorem c5_reset_reuses_stack_witness :
    (resetF exState 5 9).isSome = true
    ∧ resetF exState 0 9 = none
    ∧ resetF exState 1 9 = none := by
  refine ⟨?_, ?_, ?_⟩
  · rw [((c5_reset_reuses_stack exState 5 9 exTermFiber (by decide)).1
        6 (by decide) (by decide)).1]
    rfl
  · exact (c5_reset_reuses_stack exState 0 9 exRootFiber (by decide)).2.1
      (by decide)
  · exact (c5_reset_reuses_stack exState 1 9 exReadyFiber (by decide)).2.2
      (by decide)

/-- C7 counterexample: the claim says a nonzero requested stackSize is
used as given, but the request is a `size_t` stored into the `uint32_t`
field `m_stack_size` (`fiber.h` line 119, assigned at `fiber.cc` line 69):
requesting 2^32 bytes — nonzero — yields a fiber whose stack size is 0,
not 2^32. -/
theorem c7_create_task_fiber_counterexample :
    (4294967296 : Nat) ≠ 0
    ∧ Option.map Fiber.m_stack_size
        (hLookup (mkFiber initState 7 4294967296 true).2.1.heap 0) = some 0
    ∧ Option.map Fiber.m_stack_size
        (hLookup (mkFiber initState 7 4294967296 true).2.1.heap 0) ≠
      some 4294967296 := by
  refine ⟨by decide, rfl, by decide⟩

/-- C7 (amended): creating a task fiber leaves it Ready with the callback
installed and its context bound to the entry trampoline over its own
freshly allocated stack; the live count rises by one (modulo the uint64
wrap, hence by exactly one below the wrap); a zero requested size is
replaced by the configured `fiber.stack_size`, whose registered default
is 131072; a nonzero request is truncated to the low 32 bits of its
value by the `uint32_t` stack-size field, hence used as given exactly
when it is below 2^32. -/
theorem c7_create_task_fiber (s : SysState) (cb stackSize : Nat) (ris : Bool) :
    (hLookup (mkFiber s cb stackSize ris).2.1.heap (mkFiber s cb stackSize ris).1 =
      some
        { m_id := s.s_fiber_id, m_state := .READY,
          m_stack := some (s.next_alloc + 1),
          m_stack_size :=
            (if stackSize ≠ 0 then stackSize else s.fiber_stack_size_config) %
              U32SIZE,
          m_cb := some cb, m_runInScheduler := ris,
          m_ctx := .boundMainFunc (s.next_alloc + 1)
            ((if stackSize ≠ 0 then stackSize else s.fiber_stack_size_config) %
              U32SIZE) })
    ∧ (mkFiber s cb stackSize ris).2.1.s_fiber_count =
        (s.s_fiber_count + 1) % U64SIZE
    ∧ (s.s_fiber_count + 1 < U64SIZE →
        (mkFiber s cb stackSize ris).2.1.s_fiber_count = s.s_fiber_count + 1)
    ∧ (stackSize ≠ 0 → stackSize < U32SIZE →
        (if stackSize ≠ 0 then stackSize else s.fiber_stack_size_config) %
          U32SIZE = stackSize)
    ∧ (stackSize = 0 →
        (if stackSize ≠ 0 then stackSize else s.fiber_stack_size_config) %
          U32SIZE = s.fiber_stack_size_config % U32SIZE)
    ∧ initState.fiber_stack_size_config = defaultFiberStackSize
    ∧ defaultFiberStackSize = 131072 := by
  refine ⟨?_, ?_, ?_, ?_, ?_, ?_, ?_⟩
  · simp [mkFiber, hLookup]
  · rfl
  · intro h
    exact Nat.mod_eq_of_lt h
  · intro h1 h2
    rw [if_pos h1]
    exact Nat.mod_eq_of_lt h2
  · intro h1
    rw [if_neg (fun hne => hne h1)]
  · rfl
  · rfl

/-- C7 witness: creating a fiber in the initial state with requested size
0 gives a Ready fiber with a 131072-byte stack and raises the live count
from 0 to 1, and a request of 4096 bytes — below 2^32 — is used as
given. -/
theorem c7_create_task_fiber_witness :
    hLookup (mkFiber initState 7 0 true).2.1.heap 0 =
      some
        { m_id := 0, m_state := .READY, m_stack := some 1,
          m_stack_size := 131072, m_cb := some 7, m_runInScheduler := true,
          m_ctx := .boundMainFunc 1 131072 }
    ∧ (mkFiber initState 7 0 true).2.1.s_fiber_count = 1
    ∧ ((if (4096 : Nat) ≠ 0 then (4096 : Nat)
        else initState.fiber_stack_size_config) % U32SIZE) = 4096 := by
  refine ⟨?_, ?_, ?_⟩
  · exact (c7_create_task_fiber initState 7 0 true).1
  · exact (c7_create_task_fiber initState 7 0 true).2.2.1 (by decide)
  · exact (c7_create_task_fiber initState 7 4096 true).2.2.2.1
      (by decide) (by decide)

/-- C10: GetFiberId() returning 0 does not mean no fiber is registered:
running the very first GetThis() of a process constructs a root fiber that
receives id 0 and registers it as current, after which GetFiberId() still
returns 0 — the same value it returns on the untouched initial state. -/
theorem c10_zero_id_is_ambiguous :
    Option.map
        (fun p => (p.1.t_fiber, getFiberId p.1,
                   Option.map Fiber.m_id (hLookup p.1.heap 0)))
        (run initState [Op.getCurrent]) =
      some (some 0, 0, some 0)
    ∧ getFiberId initState = 0 := by
  constructor <;> rfl

/-- C3: the entry trampoline, run while fiber `a` is current and still
holds its callback, performs exactly: acquire a strong handle to the
current fiber, invoke the stored callback once, clear the callback, set
the state to Term, release the handle, then yield() — whose Term branch
keeps the state Term, re-registers the root fiber and swaps out.  So a
callback that returns normally reaches Term with no yield() in user
code. -/
theorem c3_trampoline_sequence (s : SysState) (a cb : Nat) (f : Fiber)
    (ht : s.t_fiber = some a) (hl : hLookup s.heap a = some f)
    (hcb : f.m_cb = some cb) :
    mainFunc s = some
      ({ s with
          t_fiber := s.t_thread_fiber
          heap := hUpdate s.heap a { f with m_cb := none, m_state := .TERM } },
       [.acquireRef a, .invokeCb cb, .writeCb a none, .writeState a .TERM,
        .releaseRef a, .setThis s.t_thread_fiber, .ctxSwapOut a])
    ∧ hLookup (hUpdate s.heap a { f with m_cb := none, m_state := .TERM }) a =
        some { f with m_cb := none, m_state := .TERM } := by
  have h2 := hLookup_hUpdate s.heap a { f with m_cb := none, m_state := .TERM } f hl
  refine ⟨?_, h2⟩
  simp [mainFunc, getThis, ht, hl, hcb, yieldF, h2]

/-- C3 witness: in `exState` the Running fiber at 3 is current with
callback 8; the trampoline drives it to Term, clears the callback and
hands control back to the root fiber. -/
theorem c3_trampoline_sequence_witness :
    (mainFunc exState).isSome = true
    ∧ Option.map (fun p => p.1.t_fiber) (mainFunc exState) = some (some 0) := by
  have h := (c3_trampoline_sequence exState 3 8 exRunningFiber
    (by decide) (by decide) (by decide)).1
  rw [h]
  exact ⟨rfl, rfl⟩

/-- C4: destroying a stack-owning fiber demands state Term (fatal
otherwise) and frees the stack; destroying a stackless (root) fiber
demands state Running and no callback, and clears the thread-local
current-fiber pointer exactly when it points at this fiber; every
successful destruction emits one count decrement and one stack release at
most, and lowers the live count by exactly one. -/
theorem c4_destructor (s : SysState) (a : Nat) (f : Fiber)
    (hl : hLookup s.heap a = some f) :
    (∀ sp, f.m_stack = some sp →
      (f.m_state = .TERM →
        destroyFiber s a = some
          ({ s with
              s_fiber_count := (s.s_fiber_count + (U64SIZE - 1)) % U64SIZE
              heap := hRemove s.heap a },
           [.countDec, .deallocStack sp f.m_stack_size]))
      ∧ (f.m_state ≠ .TERM → destroyFiber s a = none))
    ∧ (f.m_stack = none →
      ((f.m_cb = none ∧ f.m_state = .RUNNING) →
        (s.t_fiber = some a →
          destroyFiber s a = some
            ({ s with
                s_fiber_count := (s.s_fiber_count + (U64SIZE - 1)) % U64SIZE
                heap := hRemove s.heap a
                t_fiber := none },
             [.countDec, .setThis none]))
        ∧ (s.t_fiber ≠ some a →
          destroyFiber s a = some
            ({ s with
                s_fiber_count := (s.s_fiber_count + (U64SIZE - 1)) % U64SIZE
                heap := hRemove s.heap a },
             [.countDec])))
      ∧ (¬(f.m_cb = none ∧ f.m_state = .RUNNING) → destroyFiber s a = none))
    ∧ (∀ s' tr, destroyFiber s a = some (s', tr) →
        countDecs tr = 1
        ∧ countDeallocs tr ≤ 1
        ∧ (0 < s.s_fiber_count → s.s_fiber_count < U64SIZE →
            s'.s_fiber_count = s.s_fiber_count - 1))
    ∧ (∀ s' tr sp, f.m_stack = some sp → destroyFiber s a = some (s', tr) →
        countDeallocs tr = 1) := by
  have hcnt : ∀ c : Nat, 0 < c → c < U64SIZE →
      (c + (U64SIZE - 1)) % U64SIZE = c - 1 := by
    intro c h1 h2
    simp only [U64SIZE] at h2 ⊢
    omega
  have part1 : ∀ sp, f.m_stack = some sp →
      (f.m_state = .TERM →
        destroyFiber s a = some
          ({ s with
              s_fiber_count := (s.s_fiber_count + (U64SIZE - 1)) % U64SIZE
              heap := hRemove s.heap a },
           [.countDec, .deallocStack sp f.m_stack_size]))
      ∧ (f.m_state ≠ .TERM → destroyFiber s a = none) := by
    intro sp hsp
    constructor
    · intro ht
      simp [destroyFiber, hl, hsp, ht]
    · intro ht
      simp [destroyFiber, hl, hsp, ht]
  have part2 : f.m_stack = none →
      ((f.m_cb = none ∧ f.m_state = .RUNNING) →
        (s.t_fiber = some a →
          destroyFiber s a = some
            ({ s with
                s_fiber_count := (s.s_fiber_count + (U64SIZE - 1)) % U64SIZE
                heap := hRemove s.heap a
                t_fiber := none },
             [.countDec, .setThis none]))
        ∧ (s.t_fiber ≠ some a →
          destroyFiber s a = some
            ({ s with
                s_fiber_count := (s.s_fiber_count + (U64SIZE - 1)) % U64SIZE
                heap := hRemove s.heap a },
             [.countDec])))
      ∧ (¬(f.m_cb = none ∧ f.m_state = .RUNNING) → destroyFiber s a = none) := by
    intro hsp
    constructor
    · intro hrt
      constructor
      · intro hcur
        simp [destroyFiber, hl, hsp, hrt.1, hrt.2, hcur]
      · intro hcur
        simp [destroyFiber, hl, hsp, hrt.1, hrt.2, hcur]
    · intro hrt
      rcases Decidable.not_and_iff_or_not.mp hrt with h | h <;>
        simp [destroyFiber, hl, hsp, h]
  refine ⟨part1, part2, ?_, ?_⟩
  · intro s' tr h
    rcases hsp : f.m_stack with _ | sp
    · obtain ⟨pa, pb⟩ := part2 hsp
      by_cases hrt : f.m_cb = none ∧ f.m_state = .RUNNING
      · obtain ⟨pc, pd⟩ := pa hrt
        by_cases hcur : s.t_fiber = some a
        · rw [pc hcur] at h
          simp only [Option.some.injEq, Prod.mk.injEq] at h
          obtain ⟨h1, h2⟩ := h
          subst h1
          subst h2
          exact ⟨rfl, by decide, fun hp hu => hcnt _ hp hu⟩
        · rw [pd hcur] at h
          simp only [Option.some.injEq, Prod.mk.injEq] at h
          obtain ⟨h1, h2⟩ := h
          subst h1
          subst h2
          exact ⟨rfl, by decide, fun hp hu => hcnt _ hp hu⟩
      · rw [pb hrt] at h
        cases h
    · obtain ⟨pc, pd⟩ := part1 sp hsp
      by_cases ht : f.m_state = .TERM
      · rw [pc ht] at h
        simp only [Option.some.injEq, Prod.mk.injEq] at h
        obtain ⟨h1, h2⟩ := h
        subst h1
        subst h2
        exact ⟨rfl, Nat.le.refl, fun hp hu => hcnt _ hp hu⟩
      · rw [pd ht] at h
        cases h
  · intro s' tr sp hsp h
    obtain ⟨pc, pd⟩ := part1 sp hsp
    by_cases ht : f.m_state = .TERM
    · rw [pc ht] at h
      simp only [Option.some.injEq, Prod.mk.injEq] at h
      obtain ⟨h1, h2⟩ := h
      subst h2
      rfl
    · rw [pd ht] at h
      cases h

/-- C4 witness: in `exState`, destroying the Term fiber at 5 succeeds and
frees one stack; destroying the Ready fiber at 1 is fatal; destroying the
root at 0 while it is not current leaves the pointer alone, and destroying
it in `exStateRoot` (where it is current) clears the pointer. -/
theorem c4_destructor_witness :
    (destroyFiber exState 5).isSome = true
    ∧ destroyFiber exState 1 = none
    ∧ Option.map (fun p => p.1.t_fiber) (destroyFiber exState 0) =
        some (some 3)
    ∧ Option.map (fun p => p.1.t_fiber) (destroyFiber exStateRoot 0) =
        some none := by
  refine ⟨?_, ?_, ?_, ?_⟩
  · rw [((c4_destructor exState 5 exTermFiber (by decide)).1 6 (by decide)).1
        (by decide)]
    rfl
  · exact ((c4_destructor exState 1 exReadyFiber (by decide)).1 2 (by decide)).2
      (by decide)
  · rw [(((c4_destructor exState 0 exRootFiber (by decide)).2.1 (by decide)).1
        ⟨by decide, by decide⟩).2 (by decide)]
    rfl
  · rw [(((c4_destructor exStateRoot 0 exRootFiber (by decide)).2.1
        (by decide)).1 ⟨by decide, by decide⟩).1 (by decide)]
    rfl

/-- C9: with no fiber registered, GetFiberId() is 0, and GetThis()
constructs the root fiber — no callback, no stack, state Running, id drawn
from the process counter — registers it as current, stores it as the
thread's owned root handle and returns a strong reference to it, after
which GetFiberId() is that root fiber's id; with a fiber registered,
GetThis() simply returns it. -/
theorem c9_getThis_registry (s : SysState) (b : Nat) :
    (s.t_fiber = none → getFiberId s = 0)
    ∧ (s.t_fiber = none →
        getThis s =
          (s.next_alloc,
           { s with
              t_fiber := some s.next_alloc
              t_thread_fiber := some s.next_alloc
              heap := (s.next_alloc,
                { m_id := s.s_fiber_id, m_state := .RUNNING, m_stack := none,
                  m_stack_size := 0, m_cb := none, m_runInScheduler := false,
                  m_ctx := .captured }) :: s.heap
              next_alloc := s.next_alloc + 1
              s_fiber_count := (s.s_fiber_count + 1) % U64SIZE
              s_fiber_id := (s.s_fiber_id + 1) % U64SIZE },
           [.setThis (some s.next_alloc), .writeState s.next_alloc .RUNNING,
            .countInc, .assignId s.s_fiber_id, .acquireRef s.next_alloc])
        ∧ getFiberId (getThis s).2.1 = s.s_fiber_id)
    ∧ (s.t_fiber = some b → getThis s = (b, s, [.acquireRef b])) := by
  refine ⟨?_, ?_, ?_⟩
  · intro h
    simp [getFiberId, h]
  · intro h
    constructor
    · simp [getThis, mkRootFiber, h]
    · simp [getThis, mkRootFiber, h, getFiberId, hLookup]
  · intro h
    simp [getThis, h]

/-- C9 witness: on the untouched initial state GetFiberId() is 0 and
GetThis() builds a Running, stackless, callback-free root fiber with id 0
and registers it; on `exState`, where fiber 3 is current, GetThis()
returns fiber 3 unchanged. -/
theorem c9_getThis_registry_witness :
    getFiberId initState = 0
    ∧ getFiberId (getThis initState).2.1 = 0
    ∧ getThis exState = (3, exState, [.acquireRef 3]) := by
  refine ⟨?_, ?_, ?_⟩
  · exact (c9_getThis_registry initState 0).1 rfl
  · exact ((c9_getThis_registry initState 0).2.1 rfl).2
  · exact (c9_getThis_registry exState 3).2.2 (by decide)

/-- C8 counterexample: the claim says the thread-local current-fiber
pointer is updated on every construction and every destruction for all
fibers.  In the concrete run below the task-fiber constructor leaves the
pointer at the root fiber (it never writes it), and a full run with two
constructions, one resume, one trampoline (containing one yield) and one
destruction performs only 3 pointer writes — the claim demands at least
five (it counts each of the five kinds of occurrence) — so task
construction and task destruction write nothing. -/
theorem c8_counterexample :
    Option.map (fun p => p.1.t_fiber) (run initState [Op.getCurrent]) =
      some (some 0)
    ∧ Option.map
        (fun p => (p.1.t_fiber, Option.map Fiber.m_id (hLookup p.1.heap 1)))
        (run initState [Op.getCurrent, Op.create 7 0 false]) =
      some (some 0, some 1)
    ∧ Option.map
        (fun p => (countIncs p.2, countDecs p.2, countSetThis p.2))
        (run initState
          [Op.getCurrent, Op.create 7 0 false, Op.resume 1, Op.main,
           Op.destroy 1]) =
      some (2, 1, 3) := by
  refine ⟨rfl, rfl, rfl⟩

/-- C8 (amended): the thread-local current-fiber pointer is written on
every resume() and every yield(); among constructions only the root-fiber
constructor writes it (task construction leaves it untouched), and among
destructions only a stackless (root) fiber's destruction writes it, and
only when the pointer currently points at the destroyed fiber. -/
theorem c8_current_pointer_updates (s : SysState) (a : Nat) (f : Fiber)
    (cb stackSize : Nat) (ris : Bool) :
    (∀ s' tr, resumeF s a = some (s', tr) → s'.t_fiber = some a)
    ∧ (∀ s' tr, yieldF s a = some (s', tr) → s'.t_fiber = s.t_thread_fiber)
    ∧ (mkRootFiber s).2.1.t_fiber = some (mkRootFiber s).1
    ∧ (mkFiber s cb stackSize ris).2.1.t_fiber = s.t_fiber
    ∧ (∀ s' tr sp, hLookup s.heap a = some f → f.m_stack = some sp →
        destroyFiber s a = some (s', tr) → s'.t_fiber = s.t_fiber)
    ∧ (∀ s' tr, hLookup s.heap a = some f → f.m_stack = none →
        destroyFiber s a = some (s', tr) →
        s'.t_fiber = (if s.t_fiber = some a then none else s.t_fiber)) := by
  refine ⟨?_, ?_, rfl, rfl, ?_, ?_⟩
  · intro s' tr h
    unfold resumeF at h
    split at h
    · cases h
    · split at h
      · simp only [Option.some.injEq, Prod.mk.injEq] at h
        obtain ⟨h1, h2⟩ := h
        subst h1
        rfl
      · cases h
  · intro s' tr h
    unfold yieldF at h
    split at h
    · cases h
    · split at h
      · split at h
        · simp only [Option.some.injEq, Prod.mk.injEq] at h
          obtain ⟨h1, h2⟩ := h
          subst h1
          rfl
        · simp only [Option.some.injEq, Prod.mk.injEq] at h
          obtain ⟨h1, h2⟩ := h
          subst h1
          rfl
      · cases h
  · intro s' tr sp hl hsp h
    simp only [destroyFiber, hl, hsp] at h
    split at h
    · simp only [Option.some.injEq, Prod.mk.injEq] at h
      obtain ⟨h1, h2⟩ := h
      subst h1
      rfl
    · cases h
  · intro s' tr hl hsp h
    simp only [destroyFiber, hl, hsp] at h
    split at h
    · by_cases hcur : s.t_fiber = some a
      · rw [if_pos hcur] at h
        simp only [Option.some.injEq, Prod.mk.injEq] at h
        obtain ⟨h1, h2⟩ := h
        subst h1
        rw [if_pos hcur]
      · rw [if_neg hcur] at h
        simp only [Option.some.injEq, Prod.mk.injEq] at h
        obtain ⟨h1, h2⟩ := h
        subst h1
        rw [if_neg hcur]
    · cases h

/-- C8 (amended) witness: resuming the Ready fiber at 1 in `exState`
points the thread at it, yield() from the Running fiber at 3 points the
thread back at the root handle, task construction leaves the pointer on
fiber 3, destroying the Term task at 5 leaves it on fiber 3, and
destroying the root at 0 while it is current (in `exStateRoot`) clears
it. -/
theorem c8_current_pointer_updates_witness :
    Option.map (fun p => p.1.t_fiber) (resumeF exState 1) = some (some 1)
    ∧ Option.map (fun p => p.1.t_fiber) (yieldF exState 3) = some (some 0)
    ∧ (mkFiber exState 9 0 true).2.1.t_fiber = some 3
    ∧ Option.map (fun p => p.1.t_fiber) (destroyFiber exState 5) =
        some (some 3)
    ∧ Option.map (fun p => p.1.t_fiber) (destroyFiber exStateRoot 0) =
        some none := by
  have hc := c8_current_pointer_updates exState 1 exReadyFiber 9 0 true
  have hd := c8_current_pointer_updates exStateRoot 0 exRootFiber 9 0 true
  refine ⟨?_, ?_, hc.2.2.2.1, ?_, ?_⟩
  · rcases hr : resumeF exState 1 with _ | p
    · exact absurd hr (by decide)
    · have := (c8_current_pointer_updates exState 1 exReadyFiber 9 0 true).1
        p.1 p.2 (by rw [hr])
      simp [this]
  · rcases hr : yieldF exState 3 with _ | p
    · exact absurd hr (by decide)
    · have := (c8_current_pointer_updates exState 3 exRunningFiber 9 0 true).2.1
        p.1 p.2 (by rw [hr])
      simp [this, exState]
  · rcases hr : destroyFiber exState 5 with _ | p
    · exact absurd hr (by decide)
    · have := (c8_current_pointer_updates exState 5 exTermFiber 9 0 true).2.2.2.2.1
        p.1 p.2 6 (by decide) (by decide) (by rw [hr])
      simp [this, exState]
  · rcases hr : destroyFiber exStateRoot 0 with _ | p
    · exact absurd hr (by decide)
    · have := hd.2.2.2.2.2 p.1 p.2 (by decide) (by decide) (by rw [hr])
      simp only [exStateRoot] at this
      simp [this]

/-! ## The identity and counting invariant (for C6)

The invariant ties a reachable state to the whole event trace that led to
it: the id counter equals the number of constructions so far (mod 2^64),
the live counter equals constructions minus destructions (mod 2^64, and
destructions never outnumber constructions because only a live object can
be destroyed), the heap holds exactly the live objects, and the ids handed
out so far are exactly 0, 1, 2, ... reduced mod 2^64. -/

/-- Relation between a reachable state and the trace that produced it. -/
def sysInv (s : SysState) (tr : List Event) : Prop :=
  s.s_fiber_id = countIncs tr % U64SIZE
  ∧ s.s_fiber_count = (countIncs tr - countDecs tr) % U64SIZE
  ∧ countDecs tr ≤ countIncs tr
  ∧ s.heap.length = countIncs tr - countDecs tr
  ∧ constructedIds tr = (List.range (countIncs tr)).map (fun k => k % U64SIZE)

theorem range_map_mod (N : Nat) (h : N ≤ U64SIZE) :
    (List.range N).map (fun k => k % U64SIZE) = List.range N := by
  induction N with
  | zero => rfl
  | succ n ih =>
    rw [List.range_succ, List.map_append, ih (Nat.le_of_succ_le h)]
    simp [Nat.mod_eq_of_lt (Nat.lt_of_succ_le h)]

theorem range_map_snoc (N : Nat) :
    (List.range N).map (fun k => k % U64SIZE) ++ [N % U64SIZE] =
      (List.range (N + 1)).map (fun k => k % U64SIZE) := by
  rw [List.range_succ, List.map_append]
  rfl

/-- Extending a trace by events that touch no counter and no id, while the
state keeps its counters and heap size, preserves the invariant. -/
theorem sysInv_neutral (s s' : SysState) (tr tr' : List Event)
    (h : sysInv s tr)
    (hid : s'.s_fiber_id = s.s_fiber_id)
    (hc : s'.s_fiber_count = s.s_fiber_count)
    (hh : s'.heap.length = s.heap.length)
    (hi : countIncs tr' = 0) (hd : countDecs tr' = 0)
    (ha : constructedIds tr' = []) :
    sysInv s' (tr ++ tr') := by
  obtain ⟨h1, h2, h3, h4, h5⟩ := h
  refine ⟨?_, ?_, ?_, ?_, ?_⟩
  · simp [countIncs_append, hi, hid, h1]
  · simp [countIncs_append, countDecs_append, hi, hd, hc, h2]
  · rw [countIncs_append, countDecs_append, hi, hd]
    omega
  · simp [countIncs_append, countDecs_append, hi, hd, hh, h4]
  · simp [constructedIds_append, ha, countIncs_append, hi, h5]

/-- Extending a trace by one construction — one count increment and one id
assignment carrying the pre-state id counter — preserves the invariant. -/
theorem sysInv_construct (s s' : SysState) (tr tr' : List Event)
    (h : sysInv s tr)
    (hid : s'.s_fiber_id = (s.s_fiber_id + 1) % U64SIZE)
    (hc : s'.s_fiber_count = (s.s_fiber_count + 1) % U64SIZE)
    (hh : s'.heap.length = s.heap.length + 1)
    (hi : countIncs tr' = 1) (hd : countDecs tr' = 0)
    (ha : constructedIds tr' = [s.s_fiber_id]) :
    sysInv s' (tr ++ tr') := by
  obtain ⟨h1, h2, h3, h4, h5⟩ := h
  refine ⟨?_, ?_, ?_, ?_, ?_⟩
  · rw [countIncs_append, hi, hid, h1]
    simp only [U64SIZE]
    omega
  · rw [countIncs_append, countDecs_append, hi, hd, hc, h2]
    simp only [U64SIZE]
    omega
  · rw [countIncs_append, countDecs_append, hi, hd]
    omega
  · rw [countIncs_append, countDecs_append, hi, hd, hh, h4]
    omega
  · rw [constructedIds_append, ha, countIncs_append, hi, h5, h1]
    exact range_map_snoc _

/-- Extending a trace by one destruction of a live object — one count
decrement while the heap shrinks by one — preserves the invariant. -/
theorem sysInv_destroy (s s' : SysState) (tr tr' : List Event)
    (h : sysInv s tr)
    (hid : s'.s_fiber_id = s.s_fiber_id)
    (hc : s'.s_fiber_count = (s.s_fiber_count + (U64SIZE - 1)) % U64SIZE)
    (hh : s'.heap.length + 1 = s.heap.length)
    (hi : countIncs tr' = 0) (hd : countDecs tr' = 1)
    (ha : constructedIds tr' = []) :
    sysInv s' (tr ++ tr') := by
  obtain ⟨h1, h2, h3, h4, h5⟩ := h
  have hlive : countDecs tr + 1 ≤ countIncs tr := by omega
  refine ⟨?_, ?_, ?_, ?_, ?_⟩
  · simp [countIncs_append, hi, hid, h1]
  · rw [countIncs_append, countDecs_append, hi, hd, hc, h2]
    simp only [U64SIZE]
    omega
  · rw [countIncs_append, countDecs_append, hi, hd]
    omega
  · rw [countIncs_append, countDecs_append, hi, hd]
    omega
  · simp [constructedIds_append, ha, countIncs_append, hi, h5]

/-- GetThis() preserves the invariant: it is either a pure read or one
root-fiber construction. -/
theorem getThis_inv (s : SysState) (tr : List Event) (h : sysInv s tr) :
    sysInv (getThis s).2.1 (tr ++ (getThis s).2.2) := by
  cases hcur : s.t_fiber with
  | some a =>
    have he : getThis s = (a, s, [.acquireRef a]) := by
      simp [getThis, hcur]
    rw [he]
    exact sysInv_neutral s s tr [.acquireRef a] h rfl rfl rfl rfl rfl rfl
  | none =>
    refine sysInv_construct s (getThis s).2.1 tr (getThis s).2.2 h ?_ ?_ ?_ ?_ ?_ ?_ <;>
      simp [getThis, mkRootFiber, hcur, countIncs, countDecs, constructedIds]

/-- resume() preserves the invariant: no counter event, heap updated in
place. -/
theorem resumeF_inv (s : SysState) (a : Nat) (tr : List Event)
    (h : sysInv s tr) :
    ∀ s' tr', resumeF s a = some (s', tr') → sysInv s' (tr ++ tr') := by
  intro s' tr' hr
  unfold resumeF at hr
  split at hr
  · cases hr
  · split at hr
    · simp only [Option.some.injEq, Prod.mk.injEq] at hr
      obtain ⟨h1, h2⟩ := hr
      subst h1
      subst h2
      exact sysInv_neutral s _ tr _ h rfl rfl (hUpdate_length _ _ _) rfl rfl rfl
    · cases hr

/-- yield() preserves the invariant: no counter event, heap updated in
place or untouched. -/
theorem yieldF_inv (s : SysState) (a : Nat) (tr : List Event)
    (h : sysInv s tr) :
    ∀ s' tr', yieldF s a = some (s', tr') → sysInv s' (tr ++ tr') := by
  intro s' tr' hr
  unfold yieldF at hr
  split at hr
  · cases hr
  · split at hr
    · split at hr
      · simp only [Option.some.injEq, Prod.mk.injEq] at hr
        obtain ⟨h1, h2⟩ := hr
        subst h1
        subst h2
        exact sysInv_neutral s _ tr _ h rfl rfl (hUpdate_length _ _ _) rfl rfl rfl
      · simp only [Option.some.injEq, Prod.mk.injEq] at hr
        obtain ⟨h1, h2⟩ := hr
        subst h1
        subst h2
        exact sysInv_neutral s _ tr _ h rfl rfl rfl rfl rfl rfl
    · cases hr

/-- Every successful step preserves the invariant. -/
theorem step_inv (op : Op) (s : SysState) (tr : List Event)
    (h : sysInv s tr) :
    ∀ s' tr', step s op = some (s', tr') → sysInv s' (tr ++ tr') := by
  intro s' tr' hstep
  cases op with
  | getCurrent =>
    simp only [step, Option.some.injEq, Prod.mk.injEq] at hstep
    obtain ⟨h1, h2⟩ := hstep
    subst h1
    subst h2
    exact getThis_inv s tr h
  | create cb sz ris =>
    simp only [step, Option.some.injEq, Prod.mk.injEq] at hstep
    obtain ⟨h1, h2⟩ := hstep
    subst h1
    subst h2
    refine sysInv_construct s _ tr _ h ?_ ?_ ?_ ?_ ?_ ?_ <;>
      simp [mkFiber, countIncs, countDecs, constructedIds]
  | resume a =>
    exact resumeF_inv s a tr h s' tr' hstep
  | yield a =>
    exact yieldF_inv s a tr h s' tr' hstep
  | main =>
    simp only [step] at hstep
    simp only [mainFunc] at hstep
    split at hstep
    · cases hstep
    · rename_i f hlf
      split at hstep
      · cases hstep
      · rename_i cb hcb
        split at hstep
        · cases hstep
        · rename_i s3 tr3 hy
          simp only [Option.some.injEq, Prod.mk.injEq] at hstep
          obtain ⟨h1, h2⟩ := hstep
          subst h1
          subst h2
          have hg := getThis_inv s tr h
          have hmid : sysInv
              { (getThis s).2.1 with
                  heap := hUpdate (getThis s).2.1.heap (getThis s).1
                    { f with m_cb := none, m_state := .TERM } }
              ((tr ++ (getThis s).2.2) ++
                [.invokeCb cb, .writeCb (getThis s).1 none,
                 .writeState (getThis s).1 .TERM, .releaseRef (getThis s).1]) :=
            sysInv_neutral (getThis s).2.1 _ (tr ++ (getThis s).2.2) _
              hg rfl rfl (hUpdate_length _ _ _) rfl rfl rfl
          have hfin := yieldF_inv _ (getThis s).1 _ hmid s3 tr3 hy
          simp only [List.append_assoc] at hfin ⊢
          exact hfin
  | reset a cb =>
    simp only [step] at hstep
    unfold resetF at hstep
    split at hstep
    · cases hstep
    · split at hstep
      · cases hstep
      · split at hstep
        · simp only [Option.some.injEq, Prod.mk.injEq] at hstep
          obtain ⟨h1, h2⟩ := hstep
          subst h1
          subst h2
          exact sysInv_neutral s _ tr _ h rfl rfl (hUpdate_length _ _ _) rfl rfl rfl
        · cases hstep
  | destroy a =>
    simp only [step] at hstep
    unfold destroyFiber at hstep
    split at hstep
    · cases hstep
    · rename_i f hlf
      split at hstep
      · split at hstep
        · simp only [Option.some.injEq, Prod.mk.injEq] at hstep
          obtain ⟨h1, h2⟩ := hstep
          subst h1
          subst h2
          exact sysInv_destroy s _ tr _ h rfl rfl
            (hRemove_length _ _ _ hlf) rfl rfl rfl
        · cases hstep
      · split at hstep
        · split at hstep
          · simp only [Option.some.injEq, Prod.mk.injEq] at hstep
            obtain ⟨h1, h2⟩ := hstep
            subst h1
            subst h2
            exact sysInv_destroy s _ tr _ h rfl rfl
              (hRemove_length _ _ _ hlf) rfl rfl rfl
          · simp only [Option.some.injEq, Prod.mk.injEq] at hstep
            obtain ⟨h1, h2⟩ := hstep
            subst h1
            subst h2
            exact sysInv_destroy s _ tr _ h rfl rfl
              (hRemove_length _ _ _ hlf) rfl rfl rfl
        · cases hstep

/-- Every successful run preserves the invariant. -/
theorem run_inv (ops : List Op) :
    ∀ s tr, sysInv s tr → ∀ s' tr', run s ops = some (s', tr') →
      sysInv s' (tr ++ tr') := by
  induction ops with
  | nil =>
    intro s tr h s' tr' hr
    simp only [run, Option.some.injEq, Prod.mk.injEq] at hr
    obtain ⟨h1, h2⟩ := hr
    subst h1
    subst h2
    rw [List.append_nil]
    exact h
  | cons op ops ih =>
    intro s tr h s' tr' hr
    unfold run at hr
    split at hr
    · cases hr
    · rename_i s1 tr1 heq
      split at hr
      · cases hr
      · rename_i s2 tr2 heq2
        simp only [Option.some.injEq, Prod.mk.injEq] at hr
        obtain ⟨h1, h2⟩ := hr
        subst h1
        subst h2
        have hmid := step_inv op s tr h s1 tr1 heq
        have hfin := ih s1 (tr ++ tr1) hmid s2 tr2 heq2
        rw [List.append_assoc] at hfin
        exact hfin

/-- C6: in any successful execution from process start performing fewer
than 2^64 constructions, the ids assigned across all fiber constructions
(root and task alike) are exactly 0, 1, 2, ... in order — strictly
increasing, no repeats, starting at 0 — and the live-fiber counter equals
the number of constructions minus the number of destructions (every
construction adds one increment event, every destruction one decrement
event, and destructions never outnumber constructions). -/
theorem c6_ids_and_live_count (ops : List Op) (s : SysState) (tr : List Event)
    (h : run initState ops = some (s, tr))
    (hN : countIncs tr < U64SIZE) :
    constructedIds tr = List.range (countIncs tr)
    ∧ List.Pairwise (· < ·) (constructedIds tr)
    ∧ (constructedIds tr).Nodup
    ∧ countDecs tr ≤ countIncs tr
    ∧ s.s_fiber_count = countIncs tr - countDecs tr := by
  have h0 : sysInv initState [] := ⟨rfl, rfl, Nat.le.refl, rfl, rfl⟩
  have hinv := run_inv ops initState [] h0 s tr h
  rw [List.nil_append] at hinv
  obtain ⟨h1, h2, h3, h4, h5⟩ := hinv
  have hids : constructedIds tr = List.range (countIncs tr) := by
    rw [h5, range_map_mod _ (Nat.le_of_lt hN)]
  refine ⟨hids, ?_, ?_, h3, ?_⟩
  · rw [hids]
    exact List.pairwise_lt_range _
  · rw [hids]
    exact List.nodup_range _
  · rw [h2, Nat.mod_eq_of_lt]
    omega

/-- The state after running GetThis() then Create on a fresh process. -/
def exState6 : SysState :=
  { s_fiber_count := 2, s_fiber_id := 2, t_fiber := some 0,
    t_thread_fiber := some 0,
    heap := [(1,
      { m_id := 1, m_state := .READY, m_stack := some 2,
        m_stack_size := 131072, m_cb := some 7, m_runInScheduler := true,
        m_ctx := .boundMainFunc 2 131072 }),
      (0, exRootFiber)],
    next_alloc := 3, fiber_stack_size_config := 131072 }

/-- The trace of running GetThis() then Create on a fresh process. -/
def exTrace6 : List Event :=
  [.setThis (some 0), .writeState 0 .RUNNING, .countInc, .assignId 0,
   .acquireRef 0, .assignId 1, .countInc, .allocStack 2 131072]

/-- C6 witness: the two constructions of a concrete run hand out ids 0
and 1 in order and leave the live count at 2. -/
theorem c6_ids_and_live_count_witness :
    run initState [Op.getCurrent, Op.create 7 0 true] =
      some (exState6, exTrace6)
    ∧ constructedIds exTrace6 = List.range (countIncs exTrace6)
    ∧ countDecs exTrace6 ≤ countIncs exTrace6
    ∧ exState6.s_fiber_count = countIncs exTrace6 - countDecs exTrace6 := by
  have hr : run initState [Op.getCurrent, Op.create 7 0 true] =
      some (exState6, exTrace6) := by decide
  have h := c6_ids_and_live_count [Op.getCurrent, Op.create 7 0 true]
    exState6 exTrace6 hr (by decide)
  exact ⟨hr, h.1, h.2.2.2.1, h.2.2.2.2⟩

end SylarFiber
